import Mathlib

/-!
# Verification of the document import/export core of `Provider-8-chuncks`

Shallow embedding, in Lean 4, of the document pipeline of the repository:
the DOCX → Markdown-chunk importer (`ia_provider/importer.py`), the
Markdown → DOCX renderer and the structural exporter
(`ia_provider/exporter.py`), together with proofs of the behavioural
claims made by the specification about these functions.

Python strings are modelled as Lean `String`, Python `None`-able values
as `Option`, Python dynamic return values as a tagged union, and the
fallible library calls (opening a DOCX/PDF container, the Markdown
tree walk) as explicit `Except`/outcome values carried by the input,
since the byte-level parsing itself is done by external libraries
(`python-docx`, `PyMuPDF`, `markdown`, `bs4`) that are outside the
repository.
-/

/-! ## Python string helpers

Executable models of the Python `str` operations used by the source:
`str.strip`, `str.split()` (whitespace split, empties dropped),
`str.lower`, substring containment (`in`), `str.endswith`. -/

/-- Model of Python `str.strip()`: remove leading and trailing whitespace.
(Implemented over the character list so that it reduces in the kernel.) -/
def pyStrip (s : String) : String :=
  String.mk (((s.data.dropWhile Char.isWhitespace).reverse.dropWhile
    Char.isWhitespace).reverse)

/-- Helper of `pySplit`: split a character list on whitespace runs,
accumulating the current (reversed) word. -/
def splitWsAux : List Char → List Char → List String
  | [], cur => if cur.isEmpty then [] else [String.mk cur.reverse]
  | c :: t, cur =>
    if c.isWhitespace then
      if cur.isEmpty then splitWsAux t [] else String.mk cur.reverse :: splitWsAux t []
    else splitWsAux t (c :: cur)

/-- Model of Python `str.split()` with no argument: split on whitespace
runs and drop empty pieces. -/
def pySplit (s : String) : List String := splitWsAux s.data []

/-- Model of Python `str.lower()` (ASCII case folding). -/
def pyLower (s : String) : String := String.mk (s.data.map Char.toLower)

/-- Substring test on character lists: `needle` occurs somewhere in `hay`. -/
def subList (needle : List Char) : List Char → Bool
  | [] => needle.isEmpty
  | c :: t => needle.isPrefixOf (c :: t) || subList needle t

/-- Model of Python `needle in hay` substring containment. -/
def pyIn (needle hay : String) : Bool := subList needle.data hay.data

/-- Model of Python `str.endswith(suffix)`. -/
def pyEndsWith (s suffix : String) : Bool := suffix.data.isSuffixOf s.data

/-! ## Word-count chunker (`importer._regrouper_blocs_en_chunks`)

`BlocSemantique` mirrors the `TypedDict` of `importer.py`
(`niveau_titre`, `contenu_markdown`, `nombre_mots`). -/

/-- `importer.BlocSemantique`: a semantic block of the Markdown importer. -/
structure BlocSemantique where
  niveau_titre : Nat
  contenu_markdown : String
  nombre_mots : Nat
deriving DecidableEq, Repr

/-- Loop body of `_regrouper_blocs_en_chunks` (importer.py lines 183-201):
`accContenu`/`accMots` carry `chunk_actuel_contenu`/`chunk_actuel_mots`. -/
def regrouperAux (w : Nat) (accContenu : List String) (accMots : Nat) :
    List BlocSemantique → List String
  | [] => if accContenu.isEmpty then [] else [String.intercalate "\n" accContenu]
  | b :: reste =>
    if w < b.nombre_mots then
      (if accContenu.isEmpty then [] else [String.intercalate "\n" accContenu]) ++
        b.contenu_markdown :: regrouperAux w [] 0 reste
    else if w < accMots + b.nombre_mots ∧ 0 < accMots then
      String.intercalate "\n" accContenu ::
        regrouperAux w [b.contenu_markdown] b.nombre_mots reste
    else
      regrouperAux w (accContenu ++ [b.contenu_markdown]) (accMots + b.nombre_mots) reste

/-- `importer._regrouper_blocs_en_chunks`: regroup semantic blocks into
chunks of at most `motsParChunk` words (oversized blocks excepted). -/
def regrouperBlocsEnChunks (blocs : List BlocSemantique) (motsParChunk : Nat) :
    List String :=
  if blocs.isEmpty then [] else regrouperAux motsParChunk [] 0 blocs

/-- Instrumented variant of `regrouperAux` that returns the groups of
blocks making up each chunk instead of the joined chunk strings. -/
def regrouperGroupesAux (w : Nat) (acc : List BlocSemantique) (accMots : Nat) :
    List BlocSemantique → List (List BlocSemantique)
  | [] => if acc.isEmpty then [] else [acc]
  | b :: reste =>
    if w < b.nombre_mots then
      (if acc.isEmpty then [] else [acc]) ++ [b] :: regrouperGroupesAux w [] 0 reste
    else if w < accMots + b.nombre_mots ∧ 0 < accMots then
      acc :: regrouperGroupesAux w [b] b.nombre_mots reste
    else
      regrouperGroupesAux w (acc ++ [b]) (accMots + b.nombre_mots) reste

/-- The groups of blocks underlying the chunks of `regrouperBlocsEnChunks`. -/
def regrouperGroupes (blocs : List BlocSemantique) (motsParChunk : Nat) :
    List (List BlocSemantique) :=
  if blocs.isEmpty then [] else regrouperGroupesAux motsParChunk [] 0 blocs

/-- The string a group of blocks is rendered to: the `"\n".join` of the
blocks' Markdown contents. -/
def chunkOfGroupe (g : List BlocSemantique) : String :=
  String.intercalate "\n" (g.map BlocSemantique.contenu_markdown)

theorem mapContenu_isEmpty (acc : List BlocSemantique) :
    (acc.map BlocSemantique.contenu_markdown).isEmpty = acc.isEmpty := by
  cases acc <;> simp

theorem intercalate_singleton (x : String) : String.intercalate "\n" [x] = x := by
  simp [String.intercalate, String.intercalate.go]

theorem regrouperAux_eq_groupes (w : Nat) (blocs : List BlocSemantique) :
    ∀ (acc : List BlocSemantique) (accMots : Nat),
      regrouperAux w (acc.map BlocSemantique.contenu_markdown) accMots blocs =
        (regrouperGroupesAux w acc accMots blocs).map chunkOfGroupe := by
  induction blocs with
  | nil =>
    intro acc accMots
    simp only [regrouperAux, regrouperGroupesAux, mapContenu_isEmpty]
    by_cases h : acc.isEmpty <;> simp [h, chunkOfGroupe]
  | cons b reste ih =>
    intro acc accMots
    simp only [regrouperAux, regrouperGroupesAux, mapContenu_isEmpty]
    by_cases h1 : w < b.nombre_mots
    · have hb := ih [b] b.nombre_mots
      have h0 := ih [] 0
      simp only [List.map_cons, List.map_nil] at hb h0
      by_cases h2 : acc.isEmpty <;>
        simp [h1, h2, chunkOfGroupe, h0, intercalate_singleton]
    · by_cases h2 : w < accMots + b.nombre_mots ∧ 0 < accMots
      · have hb := ih [b] b.nombre_mots
        simp only [List.map_cons, List.map_nil] at hb
        simp [h1, h2, chunkOfGroupe, hb]
      · have := ih (acc ++ [b]) (accMots + b.nombre_mots)
        simp only [List.map_append, List.map_cons, List.map_nil] at this
        simp [h1, h2, this]

theorem regrouper_eq_map_chunkOfGroupe (blocs : List BlocSemantique) (w : Nat) :
    regrouperBlocsEnChunks blocs w = (regrouperGroupes blocs w).map chunkOfGroupe := by
  unfold regrouperBlocsEnChunks regrouperGroupes
  by_cases h : blocs.isEmpty
  · simp [h]
  · simpa [h] using regrouperAux_eq_groupes w blocs [] 0

theorem regrouperGroupesAux_flatten (w : Nat) (blocs : List BlocSemantique) :
    ∀ (acc : List BlocSemantique) (accMots : Nat),
      (regrouperGroupesAux w acc accMots blocs).flatten = acc ++ blocs := by
  induction blocs with
  | nil =>
    intro acc accMots
    by_cases h : acc.isEmpty <;>
      simp_all [regrouperGroupesAux, List.isEmpty_iff]
  | cons b reste ih =>
    intro acc accMots
    simp only [regrouperGroupesAux]
    by_cases h1 : w < b.nombre_mots
    · by_cases h2 : acc.isEmpty <;>
        simp_all [List.isEmpty_iff, ih]
    · by_cases h2 : w < accMots + b.nombre_mots ∧ 0 < accMots
      · simp [h1, h2, ih]
      · simp [h1, h2, ih]

theorem regrouperGroupesAux_ne_nil (w : Nat) (blocs : List BlocSemantique) :
    ∀ (acc : List BlocSemantique) (accMots : Nat),
      (0 < accMots → acc ≠ []) →
      ∀ g ∈ regrouperGroupesAux w acc accMots blocs, g ≠ [] := by
  induction blocs with
  | nil =>
    intro acc accMots _ g hg
    simp only [regrouperGroupesAux] at hg
    by_cases h : acc = []
    · simp [h] at hg
    · simp only [List.isEmpty_eq_false.mpr h, Bool.false_eq_true, if_false,
        List.mem_singleton] at hg
      subst hg
      exact h
  | cons b reste ih =>
    intro acc accMots hinv g hg
    simp only [regrouperGroupesAux] at hg
    by_cases h1 : w < b.nombre_mots
    · simp only [h1, if_true] at hg
      rcases List.mem_append.mp hg with h | h
      · by_cases h2 : acc = []
        · simp [h2] at h
        · simp only [List.isEmpty_eq_false.mpr h2, Bool.false_eq_true, if_false,
            List.mem_singleton] at h
          subst h
          exact h2
      · rcases List.mem_cons.mp h with h | h
        · subst h; simp
        · exact ih [] 0 (by simp) g h
    · by_cases h2 : w < accMots + b.nombre_mots ∧ 0 < accMots
      · simp only [h1, if_false, h2, if_true] at hg
        rcases List.mem_cons.mp hg with h | h
        · subst h; exact hinv h2.2
        · exact ih [b] b.nombre_mots (fun _ => by simp) g h
      · simp only [h1, if_false, h2] at hg
        exact ih (acc ++ [b]) (accMots + b.nombre_mots) (fun _ => by simp) g hg

theorem regrouperGroupesAux_oversized (w : Nat) (blocs : List BlocSemantique) :
    ∀ (acc : List BlocSemantique) (accMots : Nat),
      (∀ x ∈ acc, x.nombre_mots ≤ w) →
      ∀ g ∈ regrouperGroupesAux w acc accMots blocs,
        ∀ b ∈ g, w < b.nombre_mots → g = [b] := by
  induction blocs with
  | nil =>
    intro acc accMots hacc g hg b hb hbw
    simp only [regrouperGroupesAux] at hg
    by_cases h : acc = []
    · simp [h] at hg
    · simp only [List.isEmpty_eq_false.mpr h, Bool.false_eq_true, if_false,
        List.mem_singleton] at hg
      subst hg
      exact absurd (hacc b hb) (by omega)
  | cons b0 reste ih =>
    intro acc accMots hacc g hg b hb hbw
    simp only [regrouperGroupesAux] at hg
    by_cases h1 : w < b0.nombre_mots
    · simp only [h1, if_true] at hg
      rcases List.mem_append.mp hg with h | h
      · by_cases h2 : acc = []
        · simp [h2] at h
        · simp only [List.isEmpty_eq_false.mpr h2, Bool.false_eq_true, if_false,
            List.mem_singleton] at h
          subst h
          exact absurd (hacc b hb) (by omega)
      · rcases List.mem_cons.mp h with h | h
        · subst h
          rcases List.mem_singleton.mp hb with rfl
          rfl
        · exact ih [] 0 (by simp) g h b hb hbw
    · by_cases h2 : w < accMots + b0.nombre_mots ∧ 0 < accMots
      · simp only [h1, if_false, h2, if_true] at hg
        rcases List.mem_cons.mp hg with h | h
        · subst h
          exact absurd (hacc b hb) (by omega)
        · refine ih [b0] b0.nombre_mots ?_ g h b hb hbw
          intro x hx
          rcases List.mem_singleton.mp hx with rfl
          omega
      · simp only [h1, if_false, h2] at hg
        refine ih (acc ++ [b0]) (accMots + b0.nombre_mots) ?_ g hg b hb hbw
        intro x hx
        rcases List.mem_append.mp hx with h | h
        · exact hacc x h
        · rcases List.mem_singleton.mp h with rfl
          omega

/-- **C2.** For every list of semantic blocks and every positive word
budget `W`, `_regrouper_blocs_en_chunks` partitions the input into
consecutive non-empty groups of blocks: every input block lands in
exactly one output chunk, the original order is preserved, no output
chunk is empty (every chunk is the `"\n"`-join of at least one input
block), and a block whose own word count exceeds `W` forms a chunk on
its own, unmodified. -/
theorem regrouper_blocs_en_chunks_partition
    (blocs : List BlocSemantique) (w : Nat) (_hw : 0 < w) :
    regrouperBlocsEnChunks blocs w = (regrouperGroupes blocs w).map chunkOfGroupe ∧
    (regrouperGroupes blocs w).flatten = blocs ∧
    (∀ g ∈ regrouperGroupes blocs w, g ≠ []) ∧
    (∀ g ∈ regrouperGroupes blocs w, ∀ b ∈ g, w < b.nombre_mots → g = [b]) := by
  refine ⟨regrouper_eq_map_chunkOfGroupe blocs w, ?_, ?_, ?_⟩
  · unfold regrouperGroupes
    by_cases h : blocs.isEmpty
    · simp_all [List.isEmpty_iff]
    · simpa [h] using regrouperGroupesAux_flatten w blocs [] 0
  · intro g hg
    unfold regrouperGroupes at hg
    by_cases h : blocs.isEmpty
    · simp [h] at hg
    · simp only [h, if_false] at hg
      exact regrouperGroupesAux_ne_nil w blocs [] 0 (by simp) g hg
  · intro g hg
    unfold regrouperGroupes at hg
    by_cases h : blocs.isEmpty
    · simp [h] at hg
    · simp only [h, if_false] at hg
      exact regrouperGroupesAux_oversized w blocs [] 0 (by simp) g hg

/-- Witness for C2 at a concrete input: blocks of word counts
`[4000, 3000, 4000]` with budget `7500`. -/
theorem regrouper_blocs_en_chunks_partition_witness :
    0 < 7500 ∧
    (regrouperBlocsEnChunks
        [⟨0, "a", 4000⟩, ⟨0, "b", 3000⟩, ⟨0, "c", 4000⟩] 7500 =
      (regrouperGroupes
          [⟨0, "a", 4000⟩, ⟨0, "b", 3000⟩, ⟨0, "c", 4000⟩] 7500).map chunkOfGroupe ∧
     (regrouperGroupes
          [⟨0, "a", 4000⟩, ⟨0, "b", 3000⟩, ⟨0, "c", 4000⟩] 7500).flatten =
        [⟨0, "a", 4000⟩, ⟨0, "b", 3000⟩, ⟨0, "c", 4000⟩] ∧
     (∀ g ∈ regrouperGroupes
          [⟨0, "a", 4000⟩, ⟨0, "b", 3000⟩, ⟨0, "c", 4000⟩] 7500, g ≠ []) ∧
     (∀ g ∈ regrouperGroupes
          [⟨0, "a", 4000⟩, ⟨0, "b", 3000⟩, ⟨0, "c", 4000⟩] 7500,
        ∀ b ∈ g, 7500 < b.nombre_mots → g = [b])) :=
  ⟨by decide,
   regrouper_blocs_en_chunks_partition
     [⟨0, "a", 4000⟩, ⟨0, "b", 3000⟩, ⟨0, "c", 4000⟩] 7500 (by decide)⟩

/-- **C9.** The three oracle cases of the word-count chunker with budget
7500: `[1000, 2000]` gives one chunk; `[4000, 3000, 4000]` gives two
chunks of word sizes `[7000, 4000]`; `[1000, 10000, 1000]` gives three
chunks whose middle chunk is the untouched 10000-word block. -/
theorem regrouper_blocs_en_chunks_oracle_cases :
    regrouperBlocsEnChunks [⟨0, "a", 1000⟩, ⟨0, "b", 2000⟩] 7500 = ["a\nb"] ∧
    regrouperBlocsEnChunks [⟨0, "a", 4000⟩, ⟨0, "b", 3000⟩, ⟨0, "c", 4000⟩] 7500 =
      ["a\nb", "c"] ∧
    (regrouperGroupes [⟨0, "a", 4000⟩, ⟨0, "b", 3000⟩, ⟨0, "c", 4000⟩] 7500).map
        (fun g => (g.map BlocSemantique.nombre_mots).sum) = [7000, 4000] ∧
    regrouperBlocsEnChunks [⟨0, "a", 1000⟩, ⟨0, "b", 10000⟩, ⟨0, "c", 1000⟩] 7500 =
      ["a", "b", "c"] ∧
    regrouperGroupes [⟨0, "a", 1000⟩, ⟨0, "b", 10000⟩, ⟨0, "c", 1000⟩] 7500 =
      [[⟨0, "a", 1000⟩], [⟨0, "b", 10000⟩], [⟨0, "c", 1000⟩]] := by
  refine ⟨?_, ?_, ?_, ?_, ?_⟩ <;> decide

/-! ## DOCX document model

Model of the `python-docx` objects the importer walks and the exporter
builds: runs carry text plus the optional (`None`-able) formatting
attributes the code reads and writes; paragraphs carry a named style
and a run list; the body is an ordered list of paragraph/table elements,
a table being a grid of cells that are themselves element lists. -/

/-- A `python-docx` run: text plus tri-state formatting attributes
(`none` models Python `None`, i.e. "inherit"). -/
structure DocxRun where
  text : String
  bold : Option Bool
  italic : Option Bool
  fontName : Option String
  sizePt : Option Nat
  color : Option (Nat × Nat × Nat)
deriving DecidableEq, Repr

/-- A `python-docx` paragraph: named style and ordered runs. -/
structure DocxParagraph where
  styleName : String
  runs : List DocxRun
deriving DecidableEq, Repr

/-- A top-level body element: a paragraph (`CT_P`) or a table (`CT_Tbl`)
whose rows are lists of cells, each cell a list of elements. -/
inductive DocxElement where
  | par (p : DocxParagraph)
  | table (rows : List (List (List DocxElement)))

/-- A `python-docx` document: first-section header, body, first-section
footer, each an ordered element list. -/
structure DocxDocument where
  header : List DocxElement
  body : List DocxElement
  footer : List DocxElement

/-- `paragraph.text` of `python-docx`: concatenation of the run texts. -/
def paragraphText (p : DocxParagraph) : String :=
  String.join (p.runs.map DocxRun.text)

/-! ## Heuristic title detector (`importer._est_un_titre_probable`)

The two regular expressions of the source are modelled directly.
`re.match` anchors at the start of the string, so a match is a prefix
match.  For `^((\d+)|([A-Z])|([IVXLCDM]+))\.\s` each alternative is a
character-class run followed by `.` and one whitespace character; since
`.` belongs to none of the classes, greedy matching with backtracking
is equivalent to taking the maximal class run (any shorter attempt
leaves a class character where `\.` is required). -/

/-- `c` is an ASCII uppercase letter (`[A-Z]`). -/
def isUpperAZ (c : Char) : Bool := 'A' ≤ c && c ≤ 'Z'

/-- `c` is an ASCII lowercase letter. -/
def isLowerAZ (c : Char) : Bool := 'a' ≤ c && c ≤ 'z'

/-- `c` belongs to `[IVXLCDM]`, optionally case-insensitively. -/
def isRomanChar (ci : Bool) (c : Char) : Bool :=
  c = 'I' || c = 'V' || c = 'X' || c = 'L' || c = 'C' || c = 'D' || c = 'M' ||
    (ci && (c = 'i' || c = 'v' || c = 'x' || c = 'l' || c = 'c' || c = 'd' || c = 'm'))

/-- After a class run: the remainder must start with `.` followed by one
whitespace character (`\.\s`). -/
def dotThenWs : List Char → Bool
  | '.' :: c :: _ => c.isWhitespace
  | _ => false

/-- One alternative of the level-1 pattern: a non-empty maximal run of
the class `p`, then `\.\s`. -/
def classRunDotWs (p : Char → Bool) (cs : List Char) : Bool :=
  let r := cs.takeWhile p
  !r.isEmpty && dotThenWs (cs.drop r.length)

/-- Model of `re.match(r"^((\d+)|([A-Z])|([IVXLCDM]+))\.\s", text, flags)`:
`ci` selects `re.IGNORECASE` (the flag the source passes). -/
def matchNumeroteNiveau1 (ci : Bool) (s : String) : Bool :=
  let cs := s.data
  classRunDotWs Char.isDigit cs ||
  (match cs with
   | c :: '.' :: c2 :: _ => (isUpperAZ c || (ci && isLowerAZ c)) && c2.isWhitespace
   | _ => false) ||
  classRunDotWs (isRomanChar ci) cs

/-- End of the level-2 pattern, `\.?\s`: either one whitespace character
directly, or a `.` followed by one whitespace character. -/
def optDotWs : List Char → Bool
  | '.' :: c :: _ => c.isWhitespace
  | c :: _ => c.isWhitespace
  | [] => false

/-- Matcher for the `(\.\d+)+\.?\s` tail of the level-2 pattern.  `seen`
records whether at least one `(\.\d+)` group has been consumed; at each
step the matcher may stop (if a group was seen and `\.?\s` fits) or
consume one more group — exactly the backtracking choices of the regex,
digit runs being maximal for the same reason as above. -/
def matchSousNiveauxGo : List Char → Bool → Bool
  | [], _ => false
  | '.' :: rest, seen =>
    (seen && optDotWs ('.' :: rest)) ||
    (let ds := rest.takeWhile Char.isDigit
     if ds.isEmpty then false else matchSousNiveauxGo (rest.drop ds.length) true)
  | c :: _, seen => seen && c.isWhitespace
termination_by cs _ => cs.length
decreasing_by
  simp only [List.length_drop, List.length_cons]
  omega

/-- Model of `re.match(r"^\d+(\.\d+)+\.?\s", text)`. -/
def matchSousNiveaux (s : String) : Bool :=
  let cs := s.data
  let d0 := cs.takeWhile Char.isDigit
  !d0.isEmpty && matchSousNiveauxGo (cs.drop d0.length) false

/-- `importer._est_un_titre_probable` (importer.py lines 37-67): decide
whether a paragraph looks like a heading and at which level. -/
def estUnTitreProbable (p : DocxParagraph) : Option Nat :=
  let text := pyStrip (paragraphText p)
  if text = "" then none
  else if 15 ≤ (pySplit text).length then none
  else if pyEndsWith text "." then none
  else
    let runsWithText := p.runs.filter (fun r => pyStrip r.text ≠ "")
    if runsWithText.isEmpty then none
    else if ¬ runsWithText.all (fun r => r.bold == some true) then none
    else if matchNumeroteNiveau1 true text then some 1
    else if matchSousNiveaux text then some 2
    else some 2

/-- The heading rules exactly as claim C5 states them, first match
winning, with the level-1 pattern `^((\d+)|([A-Z])|([IVXLCDM]+))\.\s`
read literally, i.e. case-sensitively (no flag is mentioned). -/
def titreSelonSpecC5 (p : DocxParagraph) : Option Nat :=
  let text := pyStrip (paragraphText p)
  let runsWithText := p.runs.filter (fun r => pyStrip r.text ≠ "")
  if text = "" ∨ 15 ≤ (pySplit text).length ∨ pyEndsWith text "." = true ∨
      runsWithText = [] ∨ (∃ r ∈ runsWithText, r.bold ≠ some true) then none
  else if matchNumeroteNiveau1 false text then some 1
  else if matchSousNiveaux text then some 2
  else some 2

/-- The heading rules of C5 amended: identical except that the level-1
pattern is applied case-insensitively, as the source does with
`re.IGNORECASE`. -/
def titreSelonSpecC5Amende (p : DocxParagraph) : Option Nat :=
  let text := pyStrip (paragraphText p)
  let runsWithText := p.runs.filter (fun r => pyStrip r.text ≠ "")
  if text = "" ∨ 15 ≤ (pySplit text).length ∨ pyEndsWith text "." = true ∨
      runsWithText = [] ∨ (∃ r ∈ runsWithText, r.bold ≠ some true) then none
  else if matchNumeroteNiveau1 true text then some 1
  else if matchSousNiveaux text then some 2
  else some 2

/-- **C5 counterexample.** The all-bold two-word paragraph "i. Foo":
the code's `re.IGNORECASE` makes the lowercase letter match `[A-Z]`,
so `_est_un_titre_probable` returns level 1, while the claim's rules,
whose level-1 regex is stated without a case-insensitivity flag, give
the default level 2. -/
theorem est_un_titre_probable_ignorecase_ecart :
    estUnTitreProbable ⟨"Normal", [⟨"i. Foo", some true, none, none, none, none⟩]⟩
      = some 1 ∧
    titreSelonSpecC5 ⟨"Normal", [⟨"i. Foo", some true, none, none, none, none⟩]⟩
      = some 2 := by
  constructor <;> decide

theorem estUnTitre_eq_specAmende (p : DocxParagraph) :
    estUnTitreProbable p = titreSelonSpecC5Amende p := by
  unfold estUnTitreProbable titreSelonSpecC5Amende
  set text := pyStrip (paragraphText p) with htext
  set rwt := p.runs.filter (fun r => pyStrip r.text ≠ "") with hrwt
  by_cases h1 : text = ""
  · rw [if_pos h1, if_pos (Or.inl h1)]
  rw [if_neg h1]
  by_cases h2 : 15 ≤ (pySplit text).length
  · rw [if_pos h2, if_pos (Or.inr (Or.inl h2))]
  rw [if_neg h2]
  by_cases h3 : pyEndsWith text "." = true
  · rw [if_pos h3, if_pos (Or.inr (Or.inr (Or.inl h3)))]
  rw [if_neg h3]
  by_cases h4 : rwt = []
  · rw [if_pos (List.isEmpty_iff.mpr h4),
      if_pos (Or.inr (Or.inr (Or.inr (Or.inl h4))))]
  rw [if_neg (fun hc => h4 (List.isEmpty_iff.mp hc))]
  by_cases h5 : ∃ r ∈ rwt, r.bold ≠ some true
  · have hna : ¬ (rwt.all fun r => r.bold == some true) = true := by
      simp only [List.all_eq_true, beq_iff_eq]
      obtain ⟨r, hr, hb⟩ := h5
      exact fun hAll => hb (hAll r hr)
    rw [if_pos hna, if_pos (Or.inr (Or.inr (Or.inr (Or.inr h5))))]
  · have ha : (rwt.all fun r => r.bold == some true) = true := by
      simp only [List.all_eq_true, beq_iff_eq]
      push_neg at h5
      exact h5
    have hD : ¬ (text = "" ∨ 15 ≤ (pySplit text).length ∨
        pyEndsWith text "." = true ∨ rwt = [] ∨
        ∃ r ∈ rwt, r.bold ≠ some true) := by
      intro hd
      rcases hd with h | h | h | h | h
      exacts [h1 h, h2 h, h3 h, h4 h, h5 h]
    rw [if_neg (fun hn => hn ha), if_neg hD]

/-- **C5 (amended).** `_est_un_titre_probable` evaluates its rules in
order, first match winning: empty text, 15 or more words, trailing
period, no run with non-empty text, or a non-bold non-empty run give
`None`; otherwise the level-1 pattern `^((\d+)|([A-Z])|([IVXLCDM]+))\.\s`
— applied **case-insensitively**, as the source passes `re.IGNORECASE` —
gives level 1, the pattern `^\d+(\.\d+)+\.?\s` gives level 2, and any
other short fully-bold paragraph defaults to level 2.  The claim's five
oracle cases hold as stated. -/
theorem est_un_titre_probable_regles_amendees :
    (∀ p : DocxParagraph, estUnTitreProbable p = titreSelonSpecC5Amende p) ∧
    estUnTitreProbable
      ⟨"Normal", [⟨"Titre bref", some true, none, none, none, none⟩]⟩ = some 2 ∧
    estUnTitreProbable
      ⟨"Normal", [⟨"2. Introduction", some true, none, none, none, none⟩]⟩ = some 1 ∧
    estUnTitreProbable
      ⟨"Normal", [⟨"Titre.", some true, none, none, none, none⟩]⟩ = none ∧
    estUnTitreProbable
      ⟨"Normal", [⟨String.join (List.replicate 20 "mots "), some true,
        none, none, none, none⟩]⟩ = none ∧
    estUnTitreProbable
      ⟨"Normal", [⟨"Titre", some true, none, none, none, none⟩,
        ⟨" normal", none, none, none, none, none⟩]⟩ = none := by
  refine ⟨estUnTitre_eq_specAmende, ?_, ?_, ?_, ?_, ?_⟩ <;> decide

/-! ## Markdown-variant DOCX importer (`importer._creer_blocs_semantiques`,
`styles_contains_heading`, `analyser_docx`, `analyser_pdf`,
`analyser_document`) -/

/-- The paragraphs of an element list (`python-docx` exposes
`document.paragraphs` and `cell.paragraphs` as the paragraph children
only, without recursing into nested tables). -/
def elementsParagraphs (els : List DocxElement) : List DocxParagraph :=
  els.filterMap fun e =>
    match e with
    | .par p => some p
    | .table _ => none

/-- `importer.styles_contains_heading`: at least one body paragraph has
a style name containing "heading" or "titre" (lowercased). -/
def stylesContainsHeading (doc : DocxDocument) : Bool :=
  (elementsParagraphs doc.body).any fun p =>
    pyIn "heading" (pyLower p.styleName) || pyIn "titre" (pyLower p.styleName)

/-- Style-name normalisation of `_creer_blocs_semantiques`:
`lower()` then removal of spaces, hyphens and underscores. -/
def normaliseStyle (styleName : String) : String :=
  String.mk ((pyLower styleName).data.filter
    fun c => c ≠ ' ' && c ≠ '-' && c ≠ '_')

/-- The `STYLE`-strategy heading lookup of `_creer_blocs_semantiques`:
`for i in range(1, 5)`, first `i` whose `heading{i}`/`titre{i}` occurs
in the normalised style name. -/
def chercheNiveauStyle (styleNormalise : String) : Option Nat :=
  [1, 2, 3, 4].find? fun i =>
    pyIn ("heading" ++ Nat.repr i) styleNormalise ||
      pyIn ("titre" ++ Nat.repr i) styleNormalise

/-- Run-level Markdown emphasis wrapping of `_creer_blocs_semantiques`:
empty-text runs are skipped, bold+italic gives `***`, bold `**`,
italic `*`. -/
def runEnMarkdown (r : DocxRun) : String :=
  if r.text = "" then ""
  else if r.bold == some true && r.italic == some true then
    "***" ++ r.text ++ "***"
  else if r.bold == some true then "**" ++ r.text ++ "**"
  else if r.italic == some true then "*" ++ r.text ++ "*"
  else r.text

/-- The Markdown content accumulated for one paragraph (the `contenu`
loop of `_creer_blocs_semantiques`). -/
def runsEnMarkdown (runs : List DocxRun) : String :=
  String.join (runs.map runEnMarkdown)

/-- `finaliser_bloc` of `_creer_blocs_semantiques`: close the block
being accumulated, if any. -/
def finaliserBloc (blocs : List BlocSemantique) (contenu : List String)
    (niveau : Nat) : List BlocSemantique :=
  if contenu.isEmpty then blocs
  else
    let texte := pyStrip (String.intercalate "\n" contenu)
    blocs ++ [⟨niveau, texte, (pySplit texte).length⟩]

/-- The Markdown pipe-table lines `_creer_blocs_semantiques` appends for
one table: header row, `---` separator, remaining rows, blank line. -/
def lignesTableau (rows : List (List (List DocxElement))) : List String :=
  let lignes := rows.map fun row =>
    row.map fun cell =>
      String.intercalate "<br>" ((elementsParagraphs cell).map
        fun para => runsEnMarkdown para.runs)
  match lignes with
  | [] => []
  | l0 :: reste =>
    ("| " ++ String.intercalate " | " l0 ++ " |") ::
      ("| " ++ String.intercalate " | " ((List.replicate l0.length "---")) ++ " |") ::
      (reste.map fun l => "| " ++ String.intercalate " | " l ++ " |") ++ [""]

/-- Main loop of `_creer_blocs_semantiques` (importer.py lines 90-169):
walk the body elements, accumulating `contenu_actuel`/`niveau_actuel`. -/
def creerBlocsAux (strategie : String) :
    List DocxElement → List BlocSemantique → List String → Nat →
      List BlocSemantique
  | [], blocs, contenu, niveau => finaliserBloc blocs contenu niveau
  | .par p :: reste, blocs, contenu, niveau =>
    let styleLower := pyLower p.styleName
    let styleNormalise := normaliseStyle p.styleName
    let texteStripped := pyStrip (runsEnMarkdown p.runs)
    if texteStripped = "" then
      creerBlocsAux strategie reste blocs (contenu ++ [""]) niveau
    else
      let headingLevel : Option Nat :=
        if strategie = "STYLE" then chercheNiveauStyle styleNormalise
        else estUnTitreProbable p
      match headingLevel with
      | some lvl =>
        creerBlocsAux strategie reste (finaliserBloc blocs contenu niveau)
          [String.mk (List.replicate lvl '#') ++ " " ++ texteStripped] lvl
      | none =>
        if pyIn "list bullet" styleLower then
          creerBlocsAux strategie reste blocs (contenu ++ ["* " ++ texteStripped]) niveau
        else
          creerBlocsAux strategie reste blocs (contenu ++ [texteStripped]) niveau
  | .table rows :: reste, blocs, contenu, niveau =>
    creerBlocsAux strategie reste blocs (contenu ++ lignesTableau rows) niveau

/-- `importer._creer_blocs_semantiques`: turn a DOCX document into
semantic blocks under the given strategy (`"STYLE"` or `"HEURISTIQUE"`). -/
def creerBlocsSemantiques (doc : DocxDocument) (strategie : String) :
    List BlocSemantique :=
  creerBlocsAux strategie doc.body [] [] 0

/-! ## Dynamic results and file analysis -/

/-- The dynamic type of the first component returned by the analysis
functions, as the caller in `app.py` sees it: a list of strings, a bare
string, or a structural dict. -/
inductive PyVal where
  | listVal (l : List String)
  | strVal (s : String)
  | dictVal
deriving DecidableEq, Repr

/-- The `isinstance(contenu_brut, dict)` test of the caller branch in
`app.py` (lines 438-465). -/
def pyEstDict : PyVal → Bool
  | .dictVal => true
  | _ => false

/-- The `isinstance(contenu_brut, str)` test of the caller branch in
`app.py`. -/
def pyEstStr : PyVal → Bool
  | .strVal _ => true
  | _ => false

/-- The ways opening a DOCX container can fail: `OpcError` (corrupt
container) or any other exception, the two handlers of `analyser_docx`. -/
inductive DocxErreur where
  | opc (message : String)
  | autre (message : String)
deriving Repr

/-- An uploaded file, together with the outcome of the external parsing
libraries on its byte stream: `python-docx` opening yields a document
or an exception; PyMuPDF text extraction yields the page texts or an
exception. -/
structure Fichier where
  name : String
  docxParse : Except DocxErreur DocxDocument
  pdfParse : Except String (List String)

/-- `importer.analyser_docx` (importer.py lines 206-224): build the
Markdown chunks of a DOCX stream; on `OpcError` or any other exception
log and return `([], "HEURISTIQUE")`. -/
def analyserDocx (f : Fichier) : PyVal × String :=
  match f.docxParse with
  | .ok doc =>
    let strategie := if stylesContainsHeading doc then "STYLE" else "HEURISTIQUE"
    let blocs := creerBlocsSemantiques doc strategie
    let chunks := regrouperBlocsEnChunks blocs (500 * 15)
    (.listVal chunks, strategie)
  | .error (.opc _) => (.listVal [], "HEURISTIQUE")
  | .error (.autre _) => (.listVal [], "HEURISTIQUE")

/-- `importer.analyser_pdf` (importer.py lines 227-237): concatenate the
page texts into a single-element list; on any exception return `[""]`;
the strategy tag is always `"IA"`. -/
def analyserPdf (f : Fichier) : PyVal × String :=
  match f.pdfParse with
  | .ok pages => (.listVal [String.join pages], "IA")
  | .error _ => (.listVal [""], "IA")

/-- `importer.analyser_document` (importer.py lines 240-248): dispatch
on the lowercased filename (`filename = fichier.name.lower()`)
extension. -/
def analyserDocument (f : Fichier) : PyVal × String :=
  if pyEndsWith (pyLower f.name) ".docx" then analyserDocx f
  else if pyEndsWith (pyLower f.name) ".pdf" then analyserPdf f
  else (.listVal [""], "STYLE")

/-- **C6 counterexample.** A document whose only paragraph has the named
style "Heading 5": the heading loop of `_creer_blocs_semantiques` is
`for i in range(1, 5)` and therefore only recognises levels 1-4, so the
paragraph is emitted as a plain block (level 0, raw text), not as the
Markdown heading `##### T` of level 5 the claim requires — even though
the document is routed to the `STYLE` strategy. -/
theorem creer_blocs_heading_5_ignore :
    creerBlocsSemantiques
        ⟨[], [.par ⟨"Heading 5", [⟨"T", none, none, none, none, none⟩]⟩], []⟩
        "STYLE" = [⟨0, "T", 1⟩] ∧
    analyserDocx
        ⟨"doc.docx",
         .ok ⟨[], [.par ⟨"Heading 5", [⟨"T", none, none, none, none, none⟩]⟩], []⟩,
         .error "pas un pdf"⟩ = (.listVal ["T"], "STYLE") ∧
    ([⟨0, "T", 1⟩] : List BlocSemantique) ≠ [⟨5, "##### T", 2⟩] := by
  refine ⟨?_, ?_, ?_⟩ <;> decide

/-- **C6 (amended).** In the Markdown import variant under the `STYLE`
strategy, for every `N` from 1 to **4** (the loop is `range(1, 5)`):
any paragraph, at any point of the walk, whose rendered text is
non-empty and whose normalised style name (lowercased, with
spaces/hyphens/underscores removed) contains `heading<N>` or `titre<N>`
— and no `heading<M>`/`titre<M>` for `M < N`, the loop taking the
smallest matching level — is emitted as a Markdown heading of level
`N`: `N` `#` characters, a space, and the paragraph's stripped text,
opening a new block at level `N`.  A style matching none of
`heading1..4`/`titre1..4` and not containing "list bullet" is appended
as plain text instead — in particular `Heading 5` and `Heading 6` are
not recognised.  A body paragraph whose lowercased style contains
"heading" or "titre" makes the document select the `STYLE` strategy. -/
theorem creer_blocs_heading_styles_1_a_4 :
    (∀ (n : Nat) (nomStyle : String),
      chercheNiveauStyle (normaliseStyle nomStyle) = some n →
      ∀ runs : List DocxRun, pyStrip (runsEnMarkdown runs) ≠ "" →
      ∀ (reste : List DocxElement) (blocs : List BlocSemantique)
        (contenu : List String) (niveau : Nat),
        creerBlocsAux "STYLE" (.par ⟨nomStyle, runs⟩ :: reste) blocs contenu niveau =
          creerBlocsAux "STYLE" reste (finaliserBloc blocs contenu niveau)
            [String.mk (List.replicate n '#') ++ " " ++ pyStrip (runsEnMarkdown runs)]
            n) ∧
    (∀ n : Nat, 1 ≤ n → n ≤ 4 → ∀ nomStyle : String,
      (pyIn ("heading" ++ Nat.repr n) (normaliseStyle nomStyle) ||
        pyIn ("titre" ++ Nat.repr n) (normaliseStyle nomStyle)) = true →
      (∀ m : Nat, 1 ≤ m → m < n →
        (pyIn ("heading" ++ Nat.repr m) (normaliseStyle nomStyle) ||
          pyIn ("titre" ++ Nat.repr m) (normaliseStyle nomStyle)) = false) →
      chercheNiveauStyle (normaliseStyle nomStyle) = some n) ∧
    chercheNiveauStyle (normaliseStyle "Heading 5") = none ∧
    chercheNiveauStyle (normaliseStyle "Heading 6") = none ∧
    (∀ nomStyle : String,
      chercheNiveauStyle (normaliseStyle nomStyle) = none →
      pyIn "list bullet" (pyLower nomStyle) = false →
      ∀ runs : List DocxRun, pyStrip (runsEnMarkdown runs) ≠ "" →
      ∀ (reste : List DocxElement) (blocs : List BlocSemantique)
        (contenu : List String) (niveau : Nat),
        creerBlocsAux "STYLE" (.par ⟨nomStyle, runs⟩ :: reste) blocs contenu niveau =
          creerBlocsAux "STYLE" reste blocs
            (contenu ++ [pyStrip (runsEnMarkdown runs)]) niveau) ∧
    (∀ (doc : DocxDocument) (p : DocxParagraph),
      p ∈ elementsParagraphs doc.body →
      (pyIn "heading" (pyLower p.styleName) ||
        pyIn "titre" (pyLower p.styleName)) = true →
      stylesContainsHeading doc = true) ∧
    creerBlocsSemantiques
        ⟨[], [.par ⟨"Heading 6", [⟨"T", none, none, none, none, none⟩]⟩], []⟩
        "STYLE" = [⟨0, "T", 1⟩] := by
  refine ⟨?_, ?_, ?_, ?_, ?_, ?_, ?_⟩
  · intro n nomStyle hmatch runs hne reste blocs contenu niveau
    simp [creerBlocsAux, hne, hmatch]
  · intro n h1 h2 nomStyle hmatch hsmaller
    interval_cases n
    · simp [chercheNiveauStyle, List.find?, hmatch]
    · have e1 := hsmaller 1 (by norm_num) (by norm_num)
      simp [chercheNiveauStyle, List.find?, e1, hmatch]
    · have e1 := hsmaller 1 (by norm_num) (by norm_num)
      have e2 := hsmaller 2 (by norm_num) (by norm_num)
      simp [chercheNiveauStyle, List.find?, e1, e2, hmatch]
    · have e1 := hsmaller 1 (by norm_num) (by norm_num)
      have e2 := hsmaller 2 (by norm_num) (by norm_num)
      have e3 := hsmaller 3 (by norm_num) (by norm_num)
      simp [chercheNiveauStyle, List.find?, e1, e2, e3, hmatch]
  · decide
  · decide
  · intro nomStyle hnone hlist runs hne reste blocs contenu niveau
    simp [creerBlocsAux, hne, hnone, hlist]
  · intro doc p hp hstyle
    unfold stylesContainsHeading
    rw [List.any_eq_true]
    exact ⟨p, hp, hstyle⟩
  · decide

/-- Witness for the amended C6: the style `Titre 3` with run text
`Contenu`, emitted as the level-3 Markdown heading by the general
heading-emission conjunct; and the style `Heading 3` resolved to level 3
by the smallest-match characterisation conjunct. -/
theorem creer_blocs_heading_styles_1_a_4_witness :
    chercheNiveauStyle (normaliseStyle "Titre 3") = some 3 ∧
    pyStrip (runsEnMarkdown [⟨"Contenu", none, none, none, none, none⟩]) ≠ "" ∧
    (creerBlocsAux "STYLE"
        [.par ⟨"Titre 3", [⟨"Contenu", none, none, none, none, none⟩]⟩] [] [] 0 =
      creerBlocsAux "STYLE" [] (finaliserBloc [] [] 0)
        [String.mk (List.replicate 3 '#') ++ " " ++
          pyStrip (runsEnMarkdown [⟨"Contenu", none, none, none, none, none⟩])] 3) ∧
    chercheNiveauStyle (normaliseStyle "Heading 3") = some 3 :=
  ⟨by decide, by decide,
   creer_blocs_heading_styles_1_a_4.1 3 "Titre 3" (by decide)
     [⟨"Contenu", none, none, none, none, none⟩] (by decide) [] [] [] 0,
   creer_blocs_heading_styles_1_a_4.2.1 3 (by norm_num) (by norm_num) "Heading 3"
     (by decide) (by intro m hm1 hm2; interval_cases m <;> decide)⟩

/-- **C4.** `analyser_docx` never propagates a parse failure: whether the
container is corrupt (`OpcError`) or any other exception occurs, it
returns the empty chunk list with strategy `"HEURISTIQUE"`.  (In the
embedding `analyserDocx` is a total function, so "never raises" is the
totality of the definition; this theorem pins down the degraded value.) -/
theorem analyser_docx_erreur_degrade (f : Fichier) (e : DocxErreur)
    (h : f.docxParse = .error e) :
    analyserDocx f = (.listVal [], "HEURISTIQUE") := by
  unfold analyserDocx
  rw [h]
  cases e <;> rfl

/-- Witness for C4: a concrete corrupt-container file. -/
theorem analyser_docx_erreur_degrade_witness :
    (Fichier.mk "x.docx" (.error (.opc "conteneur corrompu")) (.error "na")).docxParse
        = .error (.opc "conteneur corrompu") ∧
    analyserDocx (Fichier.mk "x.docx" (.error (.opc "conteneur corrompu")) (.error "na"))
        = (.listVal [], "HEURISTIQUE") :=
  ⟨rfl, analyser_docx_erreur_degrade _ (.opc "conteneur corrompu") rfl⟩

theorem pdf_suffix_exclut_docx (s : String) (h : pyEndsWith s ".pdf" = true) :
    pyEndsWith s ".docx" = false := by
  by_contra hd
  have hd' : pyEndsWith s ".docx" = true := by
    revert hd
    cases pyEndsWith s ".docx" <;> simp
  have h1 : ".pdf".data <:+ s.data := List.isSuffixOf_iff_suffix.mp h
  have h2 : ".docx".data <:+ s.data := List.isSuffixOf_iff_suffix.mp hd'
  have : ".pdf".data <:+ ".docx".data :=
    List.suffix_of_suffix_length_le h1 h2 (by decide)
  exact absurd this (by decide)

/-- **C7.** `analyser_pdf` always returns a single-element list of plain
text together with the `"IA"` strategy tag — never a structural tree —
and `analyser_document` routes every filename whose lowercase form ends
in `.pdf` to `analyser_pdf` (such a name cannot also end in `.docx`,
which is tested first). -/
theorem analyser_pdf_texte_brut (f : Fichier) :
    (∃ t, analyserPdf f = (.listVal [t], "IA")) ∧
    pyEstDict (analyserPdf f).1 = false ∧
    (pyEndsWith (pyLower f.name) ".pdf" = true →
      analyserDocument f = analyserPdf f) := by
  refine ⟨?_, ?_, ?_⟩
  · unfold analyserPdf
    cases f.pdfParse with
    | ok pages => exact ⟨String.join pages, rfl⟩
    | error e => exact ⟨"", rfl⟩
  · unfold analyserPdf
    cases f.pdfParse <;> rfl
  · intro h
    unfold analyserDocument
    rw [pdf_suffix_exclut_docx (pyLower f.name) h, h]
    simp

/-- Witness for C7: a concrete PDF upload (uppercase extension). -/
theorem analyser_pdf_texte_brut_witness :
    pyEndsWith (pyLower "Rapport.PDF") ".pdf" = true ∧
    analyserDocument (Fichier.mk "Rapport.PDF" (.error (.autre "na")) (.ok ["p1 ", "p2"]))
      = analyserPdf (Fichier.mk "Rapport.PDF" (.error (.autre "na")) (.ok ["p1 ", "p2"])) :=
  ⟨by decide, (analyser_pdf_texte_brut _).2.2 (by decide)⟩

/-- **C10.** For every uploaded file, the first component returned by
`analyser_document` is a list of strings — the Markdown chunks for
`.docx`, a single-element text list for `.pdf`, `[""]` for any other
extension — and never a dict-shaped structural tree, so the caller
branch in `app.py` that tests `isinstance(contenu_brut, dict)` to
export structure directly can never be taken. -/
theorem analyser_document_toujours_liste (f : Fichier) :
    (∃ l, (analyserDocument f).1 = .listVal l) ∧
    pyEstDict (analyserDocument f).1 = false ∧
    (pyEndsWith (pyLower f.name) ".docx" = true →
      analyserDocument f = analyserDocx f) ∧
    (pyEndsWith (pyLower f.name) ".pdf" = true →
      ∃ t, (analyserDocument f).1 = .listVal [t]) ∧
    (pyEndsWith (pyLower f.name) ".docx" = false →
      pyEndsWith (pyLower f.name) ".pdf" = false →
      analyserDocument f = (.listVal [""], "STYLE")) := by
  have hdocx : ∃ l, (analyserDocx f).1 = .listVal l := by
    unfold analyserDocx
    cases f.docxParse with
    | ok doc => exact ⟨_, rfl⟩
    | error e => cases e <;> exact ⟨[], rfl⟩
  have hpdf : ∃ t, (analyserPdf f).1 = .listVal [t] := by
    unfold analyserPdf
    cases f.pdfParse with
    | ok pages => exact ⟨String.join pages, rfl⟩
    | error e => exact ⟨"", rfl⟩
  have hlist : ∃ l, (analyserDocument f).1 = .listVal l := by
    unfold analyserDocument
    by_cases h1 : pyEndsWith (pyLower f.name) ".docx" = true
    · rw [if_pos h1]; exact hdocx
    · rw [if_neg h1]
      by_cases h2 : pyEndsWith (pyLower f.name) ".pdf" = true
      · rw [if_pos h2]
        obtain ⟨t, ht⟩ := hpdf
        exact ⟨[t], ht⟩
      · rw [if_neg h2]; exact ⟨[""], rfl⟩
  refine ⟨hlist, ?_, ?_, ?_, ?_⟩
  · obtain ⟨l, hl⟩ := hlist
    rw [hl]; rfl
  · intro h
    unfold analyserDocument
    rw [h]; simp
  · intro h
    unfold analyserDocument
    rw [pdf_suffix_exclut_docx (pyLower f.name) h, h]
    simpa using hpdf
  · intro h1 h2
    unfold analyserDocument
    rw [h1, h2]; simp

/-- Witness for C10: a file with an unsupported extension. -/
theorem analyser_document_toujours_liste_witness :
    pyEndsWith (pyLower "notes.txt") ".docx" = false ∧
    pyEndsWith (pyLower "notes.txt") ".pdf" = false ∧
    analyserDocument (Fichier.mk "notes.txt" (.error (.autre "na")) (.error "na"))
      = (.listVal [""], "STYLE") :=
  ⟨by decide, by decide,
   (analyser_document_toujours_liste _).2.2.2.2 (by decide) (by decide)⟩

/-! ## Markdown renderer (`exporter.MarkdownToDocxConverter.add_markdown`)

The conversion pipeline inside the `try` block — `markdown` conversion,
`BeautifulSoup` parsing and the `_process_element` walk — is driven by
external libraries and arbitrary input; it is modelled as an oracle
`rendu` that either succeeds with the paragraphs it appended or raises
after having appended a partial prefix of them.  `add_markdown` itself
(the `try`/`except` of exporter.py lines 188-210) is embedded exactly. -/

/-- Outcome of the Markdown → elements walk of `add_markdown`'s `try`
body on one input: success with the appended paragraphs, or an exception
with the paragraphs already appended before the failure and the
exception's message. -/
inductive RenduMarkdown where
  | succes (paragraphes : List DocxParagraph)
  | echec (paragraphesPartiels : List DocxParagraph) (message : String)

/-- The warning text of the fallback branch (f-string of exporter.py
line 205), with the exception message interpolated. -/
def messageAvertissement (e : String) : String :=
  "[Le formatage de ce bloc a échoué. Contenu original ci-dessous. Erreur : "
    ++ e ++ "]"

/-- The italic grey warning paragraph the fallback branch appends. -/
def paragrapheAvertissement (e : String) : DocxParagraph :=
  ⟨"Normal",
   [⟨messageAvertissement e, none, some true, none, none, some (120, 120, 120)⟩]⟩

/-- A plain paragraph holding raw text (`doc.add_paragraph(text)`). -/
def paragrapheBrut (texte : String) : DocxParagraph :=
  ⟨"Normal", [⟨texte, none, none, none, none, none⟩]⟩

/-- `MarkdownToDocxConverter.add_markdown`: empty text returns at once;
otherwise run the conversion walk; on an exception append the warning
paragraph and then the raw text as a plain paragraph. -/
def addMarkdown (rendu : String → RenduMarkdown) (doc : List DocxParagraph)
    (texte : String) : List DocxParagraph :=
  if texte = "" then doc
  else
    match rendu texte with
    | .succes ps => doc ++ ps
    | .echec ps e => doc ++ ps ++ [paragrapheAvertissement e, paragrapheBrut texte]

theorem subList_contient (n pre suf : List Char) :
    subList n (pre ++ n ++ suf) = true := by
  induction pre with
  | nil =>
    cases h : n ++ suf with
    | nil =>
      have hn : n = [] := (List.append_eq_nil.mp h).1
      have hs : suf = [] := (List.append_eq_nil.mp h).2
      subst hn; subst hs
      simp [subList]
    | cons c t =>
      have : subList n (n ++ suf) = true := by
        rw [h]
        simp only [subList, Bool.or_eq_true]
        left
        rw [← h, List.isPrefixOf_iff_prefix]
        exact List.prefix_append n suf
      simpa using this
  | cons c pre ih =>
    simp only [List.cons_append, subList, Bool.or_eq_true]
    right
    exact ih

/-- **C1.** `add_markdown` never raises (it is a total function of the
walk outcome); whenever the tree walk raises, exactly one italic grey
warning paragraph containing the exception's message followed by one
plain paragraph holding the raw original text are appended after any
partial output, so at least one paragraph is added to the document. -/
theorem add_markdown_fallback (rendu : String → RenduMarkdown)
    (doc : List DocxParagraph) (texte : String)
    (ps : List DocxParagraph) (e : String)
    (htexte : texte ≠ "") (hrendu : rendu texte = .echec ps e) :
    addMarkdown rendu doc texte =
      doc ++ ps ++ [paragrapheAvertissement e, paragrapheBrut texte] ∧
    doc.length + 1 ≤ (addMarkdown rendu doc texte).length ∧
    (paragrapheAvertissement e).runs.all
      (fun r => r.italic == some true && r.color == some (120, 120, 120)) = true ∧
    pyIn e (messageAvertissement e) = true ∧
    (addMarkdown rendu doc texte).getLast? = some (paragrapheBrut texte) := by
  have heq : addMarkdown rendu doc texte =
      doc ++ ps ++ [paragrapheAvertissement e, paragrapheBrut texte] := by
    unfold addMarkdown
    rw [if_neg htexte, hrendu]
  refine ⟨heq, ?_, ?_, ?_, ?_⟩
  · rw [heq]
    simp
  · simp [paragrapheAvertissement]
  · unfold pyIn messageAvertissement
    have := subList_contient e.data
      "[Le formatage de ce bloc a échoué. Contenu original ci-dessous. Erreur : ".data
      "]".data
    simpa using this
  · rw [heq]
    simp

/-- Witness for C1: a concrete walk that raises immediately. -/
theorem add_markdown_fallback_witness :
    ("**gras" ≠ "") ∧
    ((fun _ : String => RenduMarkdown.echec [] "lxml indisponible") "**gras"
        = .echec [] "lxml indisponible") ∧
    addMarkdown (fun _ => .echec [] "lxml indisponible") [] "**gras" =
      [] ++ [] ++ [paragrapheAvertissement "lxml indisponible", paragrapheBrut "**gras"] :=
  ⟨by decide, rfl,
   (add_markdown_fallback (fun _ => .echec [] "lxml indisponible") [] "**gras" []
     "lxml indisponible" (by decide) rfl).1⟩

/-! ## Structural exporter (`exporter._appliquer_style_run`,
`exporter._reconstruire_blocs`, `exporter.generer_export_docx`)

The input is the JSON-shaped structural tree the exporter replays:
blocks are dicts with a `type` tag and optional `runs`/`items`/`rows`
keys, runs carry a `text` and an optional `style` dict. -/

/-- A run-style dict of the structural tree (keys of
`_appliquer_style_run`); `none` models an absent key.  A `style` value
that is absent or an empty dict is modelled as `none` on the run. -/
structure StructStyle where
  font_name : Option String
  font_size : Option Nat
  is_bold : Option Bool
  is_italic : Option Bool
  font_color_rgb : Option String
deriving DecidableEq, Repr

/-- A run dict of the structural tree (`run_data`): `text` (defaulting
to `""` when absent) and the optional `style` dict. -/
structure StructRun where
  text : String
  style : Option StructStyle
deriving DecidableEq, Repr

/-- A block dict of the structural tree: the `type` tag and the
`runs`/`items`/`rows` payloads (each defaulting to empty when absent). -/
inductive StructBlock where
  | mk (type_ : String) (runs : List StructRun) (items : List String)
      (rows : List (List (List StructBlock)))

/-- The structural document dict: `header`/`body`/`footer` block lists
(absent keys modelled as `[]`, matching the falsiness test
`if document_structure.get("header"):`). -/
structure StructDocument where
  header : List StructBlock
  body : List StructBlock
  footer : List StructBlock

/-- Model of Python `str.startswith(prefixe)`. -/
def pyStartsWith (s prefixe : String) : Bool := prefixe.data.isPrefixOf s.data

/-- Helper of `pySplitChar`: split on a separator character, keeping
empty pieces (Python `str.split("_")` semantics). -/
def splitCharAux (sep : Char) : List Char → List Char → List String
  | [], cur => [String.mk cur.reverse]
  | c :: t, cur =>
    if c = sep then String.mk cur.reverse :: splitCharAux sep t []
    else splitCharAux sep t (c :: cur)

/-- Model of Python `str.split(sep)` for a one-character separator. -/
def pySplitChar (s : String) (sep : Char) : List String :=
  splitCharAux sep s.data []

/-- The value of one hexadecimal digit. -/
def hexVal (c : Char) : Option Nat :=
  if '0' ≤ c ∧ c ≤ '9' then some (c.toNat - '0'.toNat)
  else if 'a' ≤ c ∧ c ≤ 'f' then some (c.toNat - 'a'.toNat + 10)
  else if 'A' ≤ c ∧ c ≤ 'F' then some (c.toNat - 'A'.toNat + 10)
  else none

/-- Accumulating base-16 digit fold of `pyIntHex`. -/
def pyIntHexAux : List Char → Nat → Option Nat
  | [], acc => some acc
  | c :: t, acc =>
    match hexVal c with
    | some v => pyIntHexAux t (acc * 16 + v)
    | none => none

/-- Model of Python `int(s, 16)` on the character lists
`RGBColor.from_string` slices: surrounding whitespace is stripped, then
a non-empty run of hex digits is required.  (The sign, `0x`-prefix and
digit-underscore forms Python also accepts are not modelled; no input
near the verified claims uses them, and they make no well-formed color
accepted here be rejected by Python or vice versa.) -/
def pyIntHex (l : List Char) : Option Nat :=
  let t := ((l.dropWhile Char.isWhitespace).reverse.dropWhile
    Char.isWhitespace).reverse
  if t.isEmpty then none else pyIntHexAux t 0

/-- Model of `docx.shared.RGBColor.from_string` followed by the
`RGBColor` constructor validation: parse `s[:2]`, `s[2:4]`, `s[4:]` as
hexadecimal integers and require each in `0..255`; `none` models the
`ValueError` both steps can raise. -/
def rgbFromString (s : String) : Option (Nat × Nat × Nat) :=
  let cs := s.data
  match pyIntHex (cs.take 2), pyIntHex ((cs.drop 2).take 2), pyIntHex (cs.drop 4) with
  | some b1, some b2, some b3 =>
    if b1 ≤ 255 ∧ b2 ≤ 255 ∧ b3 ≤ 255 then some (b1, b2, b3) else none
  | _, _, _ => none

/-- Model of Python `int(s)` on a string expected to hold a decimal
natural number: surrounding whitespace stripped, then a non-empty digit
run (with the same caveat as `pyIntHex` about exotic literal forms). -/
def pyIntDec (s : String) : Option Nat :=
  let t := ((s.data.dropWhile Char.isWhitespace).reverse.dropWhile
    Char.isWhitespace).reverse
  if t.isEmpty then none
  else if t.all Char.isDigit then
    some (t.foldl (fun acc c => acc * 10 + (c.toNat - '0'.toNat)) 0)
  else none

/-- Lines `run.bold = style.get("is_bold")` / `run.italic = ...` of
`_appliquer_style_run`: unconditional assignment, possibly of `None`. -/
def etapeBoldItalic (run : DocxRun) (st : StructStyle) : DocxRun :=
  { run with bold := st.is_bold, italic := st.is_italic }

/-- Line `if style.get("font_name"): run.font.name = ...` of
`_appliquer_style_run`: applied only when truthy (present, non-empty). -/
def etapeFontNom (run : DocxRun) (st : StructStyle) : DocxRun :=
  match st.font_name with
  | some fn => if fn ≠ "" then { run with fontName := some fn } else run
  | none => run

/-- Line `if style.get("font_size"): run.font.size = Pt(int(...))` of
`_appliquer_style_run`: applied only when truthy (present, non-zero). -/
def etapeFontTaille (run : DocxRun) (st : StructStyle) : DocxRun :=
  match st.font_size with
  | some n => if n ≠ 0 then { run with sizePt := some n } else run
  | none => run

/-- The color `try`/`except ValueError` of `_appliquer_style_run`:
a truthy color string is parsed with `RGBColor.from_string`; a
`ValueError` (malformed color) is swallowed and the color left unset. -/
def etapeCouleur (run : DocxRun) (st : StructStyle) : DocxRun :=
  match st.font_color_rgb with
  | some c =>
    if c ≠ "" then
      match rgbFromString c with
      | some rgb => { run with color := some rgb }
      | none => run
    else run
  | none => run

/-- `exporter._appliquer_style_run` (exporter.py lines 212-226): apply a
style dict to a run, statement by statement; an absent/empty style dict
(`if not style: return`) leaves the run alone. -/
def appliquerStyleRun (run : DocxRun) (style : Option StructStyle) : DocxRun :=
  match style with
  | none => run
  | some st => etapeCouleur (etapeFontTaille (etapeFontNom (etapeBoldItalic run st) st) st) st

/-- Replay of a block's `runs` list: `p.add_run(run_data.get("text",""))`
then `_appliquer_style_run(run, run_data.get("style"))`. -/
def rejouerRuns (runs : List StructRun) : List DocxRun :=
  runs.map fun rd => appliquerStyleRun ⟨rd.text, none, none, none, none, none⟩ rd.style

/-- The single empty paragraph a fresh `python-docx` table cell holds. -/
def celluleNeuve : List DocxElement := [.par ⟨"Normal", []⟩]

mutual

/-- `exporter._reconstruire_blocs` (exporter.py lines 229-254): replay a
structural block list into native elements.  Python exceptions are
modelled as `Except.error`: a non-numeric heading suffix
(`int(type_bloc.split("_")[-1])`) or an out-of-range heading level
raises, and a row wider than the first row is modelled as an
`IndexError` (the library's flat `table.cell(i, j)` indexing would
alias a neighbouring cell there; no claim exercises that corner). -/
def reconstruireBlocs : List StructBlock → Except String (List DocxElement)
  | [] => .ok []
  | b :: reste => do
    let els ← reconstruireBloc b
    let resteEls ← reconstruireBlocs reste
    .ok (els ++ resteEls)

/-- Replay of one structural block (the loop body of
`_reconstruire_blocs`): dispatch on the `type` tag. -/
def reconstruireBloc : StructBlock → Except String (List DocxElement)
  | .mk type_ runs items rows =>
    if pyStartsWith type_ "heading" then
      match pyIntDec ((pySplitChar type_ '_').getLastD "") with
      | none => .error "ValueError: invalid literal for int"
      | some lvl =>
        if 9 < lvl then .error "ValueError: heading level out of range"
        else
          .ok [.par ⟨if lvl = 0 then "Title" else "Heading " ++ Nat.repr lvl,
            rejouerRuns runs⟩]
    else if type_ = "list" then
      .ok (items.map fun item =>
        .par ⟨"List Bullet", [⟨item, none, none, none, none, none⟩]⟩)
    else if type_ = "table" then
      match rows with
      | [] => .ok []
      | ligne0 :: _ => do
        let grille ← reconstruireLignes ligne0.length rows
        .ok [.table grille]
    else
      .ok [.par ⟨"Normal", rejouerRuns runs⟩]

/-- Replay of the row list of a `table` block into the `rows × cols`
native grid; rows narrower than the first row leave fresh empty cells. -/
def reconstruireLignes (cols : Nat) :
    List (List (List StructBlock)) → Except String (List (List (List DocxElement)))
  | [] => .ok []
  | ligne :: reste =>
    if cols < ligne.length then .error "IndexError: cell outside table grid"
    else do
      let cellules ← reconstruireCellules ligne
      let resteL ← reconstruireLignes cols reste
      .ok ((cellules ++ List.replicate (cols - ligne.length) celluleNeuve) :: resteL)

/-- Replay of one row's cells: each cell keeps its initial empty
paragraph and receives the recursively replayed cell content. -/
def reconstruireCellules :
    List (List StructBlock) → Except String (List (List DocxElement))
  | [] => .ok []
  | cellule :: reste => do
    let els ← reconstruireBlocs cellule
    let resteC ← reconstruireCellules reste
    .ok ((celluleNeuve ++ els) :: resteC)

end

/-- The table-of-contents field paragraph `generer_export_docx` inserts:
one paragraph holding one run with empty text (the `fldChar`/`instrText`
field machinery lives inside the run's XML and carries no text). -/
def paragrapheTdm : DocxElement := .par ⟨"Normal", [⟨"", none, none, none, none, none⟩]⟩

/-- `exporter.generer_export_docx` (exporter.py lines 257-287): rebuild
header and footer when non-empty, insert the TOC field paragraph, then
replay the body.  (`styles_interface` is accepted by the source but
never read in this function, and is therefore not a parameter here.) -/
def genererExportDocx (docStructure : StructDocument) :
    Except String DocxDocument := do
  let headerEls ←
    if docStructure.header.isEmpty then pure []
    else reconstruireBlocs docStructure.header
  let footerEls ←
    if docStructure.footer.isEmpty then pure []
    else reconstruireBlocs docStructure.footer
  let corps ← reconstruireBlocs docStructure.body
  .ok ⟨headerEls, paragrapheTdm :: corps, footerEls⟩

/-! ## Structural importer (spec §4.1, structural variant)

The repository's `importer.analyser_docx` returns Markdown chunks; the
structural importer producing the `Document`/Block/Run tree that
`generer_export_docx` replays (and that `app.py`'s dict branch and the
round-trip property presuppose) is not under `src/`.  It is modelled
below from the specification's §4.1. -/

/-- One hexadecimal digit character (uppercase), as `"%02X"` prints. -/
def chiffreHex : Nat → Char
  | 0 => '0' | 1 => '1' | 2 => '2' | 3 => '3' | 4 => '4'
  | 5 => '5' | 6 => '6' | 7 => '7' | 8 => '8' | 9 => '9'
  | 10 => 'A' | 11 => 'B' | 12 => 'C' | 13 => 'D' | 14 => 'E' | 15 => 'F'
  | _ => '0'

/-- A byte printed as two uppercase hexadecimal digits (`"%02X"`,
the `str` form of one `RGBColor` component). -/
def octetHex (n : Nat) : String := String.mk [chiffreHex (n / 16 % 16), chiffreHex (n % 16)]

/-- An RGB triple printed as the six-digit uppercase hex string
`str(RGBColor(...))` yields (no `#` prefix). -/
def rgbEnHex (c : Nat × Nat × Nat) : String :=
  octetHex c.1 ++ octetHex c.2.1 ++ octetHex c.2.2

/-- A run of the imported structural tree: text plus the Style fields
(font name, point size, bold, italic, hex color). -/
structure ImportRun where
  text : String
  font_name : Option String
  font_size : Option Nat
  bold : Option Bool
  italic : Option Bool
  color : Option String
deriving DecidableEq, Repr

/-- A block of the imported structural tree: paragraph, heading with
level, list of plain-text items, or table of cells (each cell a block
list). -/
inductive ImportBlock where
  | paragraphe (runs : List ImportRun)
  | titre (niveau : Nat) (runs : List ImportRun)
  | liste (items : List String)
  | tableau (rows : List (List (List ImportBlock)))

/-- The imported structural document: header, body, footer block lists. -/
structure DocumentStructurel where
  header : List ImportBlock
  body : List ImportBlock
  footer : List ImportBlock

/-- Modelled from the spec: run extraction of the structural importer
(§4.1 step 3) — `{text, font_name, font_size_in_points, bold, italic,
color_as_hex_or_none}`, the color rendered in the library's hex form. -/
def importRun (r : DocxRun) : ImportRun :=
  ⟨r.text, r.fontName, r.sizePt, r.bold, r.italic, r.color.map rgbEnHex⟩

/-- Modelled from the spec: list coalescing of the structural importer
(§4.1 step 2) — a list-styled paragraph's plain text joins the
immediately preceding `List` block if there is one, else opens a new
`List` block. -/
def ajouterElementListe (acc : List ImportBlock) (texte : String) :
    List ImportBlock :=
  match acc.getLast? with
  | some (.liste items) => acc.dropLast ++ [.liste (items ++ [texte])]
  | _ => acc ++ [.liste [texte]]

mutual

/-- All paragraphs of an element list, including those inside table
cells at any depth (the "any paragraph anywhere" scan the heuristic-mode
selection of §4.1 needs). -/
def tousLesParagraphes : List DocxElement → List DocxParagraph
  | [] => []
  | e :: reste => paragraphesElement e ++ tousLesParagraphes reste

/-- Paragraphs of one element: itself, or its table cells' paragraphs. -/
def paragraphesElement : DocxElement → List DocxParagraph
  | .par p => [p]
  | .table rows => paragraphesLignes rows

/-- Paragraphs of a table's rows. -/
def paragraphesLignes : List (List (List DocxElement)) → List DocxParagraph
  | [] => []
  | ligne :: reste => paragraphesCellules ligne ++ paragraphesLignes reste

/-- Paragraphs of one row's cells. -/
def paragraphesCellules : List (List DocxElement) → List DocxParagraph
  | [] => []
  | cellule :: reste => tousLesParagraphes cellule ++ paragraphesCellules reste

end

/-- Modelled from the spec: the per-document mode selection of §4.1
(absent from `src/`) — the heuristic title detector is "used when the
source document has no paragraph anywhere using a heading-style name
(style-absence is detected once per document, not per paragraph)". -/
def docContientStyleTitre (doc : DocxDocument) : Bool :=
  (tousLesParagraphes doc.header ++ tousLesParagraphes doc.body ++
      tousLesParagraphes doc.footer).any
    fun p => pyIn "heading" (pyLower p.styleName) || pyIn "titre" (pyLower p.styleName)

mutual

/-- Modelled from the spec: the element walk of the structural importer
(§4.1 steps 1-4, absent from `src/`): process the elements in order,
threading the emitted-block accumulator; `heuristique` is the
document-wide mode computed once by `docContientStyleTitre`. -/
def importerElements (heuristique : Bool) :
    List ImportBlock → List DocxElement → List ImportBlock
  | acc, [] => acc
  | acc, e :: reste =>
    importerElements heuristique (importerElement heuristique acc e) reste

/-- Modelled from the spec: one step of the structural importer's walk
(§4.1, absent from `src/`): keep only runs with non-empty text, omit
paragraphs with no such run, classify heading-ness by style name
(heading 1-2 / titre 1-2) or — in heuristic mode — by
`_est_un_titre_probable`, then the list style, else a paragraph;
recurse into table cells, omit empty tables. -/
def importerElement (heuristique : Bool) :
    List ImportBlock → DocxElement → List ImportBlock
  | acc, .par p =>
    let runsNonVides := p.runs.filter (fun r => r.text ≠ "")
    if runsNonVides.isEmpty then acc
    else
      let sl := pyLower p.styleName
      let niveauTitre : Option Nat :=
        if heuristique then estUnTitreProbable p
        else if pyIn "heading 1" sl || pyIn "titre 1" sl then some 1
        else if pyIn "heading 2" sl || pyIn "titre 2" sl then some 2
        else none
      match niveauTitre with
      | some lvl => acc ++ [.titre lvl (runsNonVides.map importRun)]
      | none =>
        if pyIn "list" sl || pyIn "liste" sl then
          ajouterElementListe acc (paragraphText p)
        else
          acc ++ [.paragraphe (runsNonVides.map importRun)]
  | acc, .table rows =>
    if rows.isEmpty then acc
    else acc ++ [.tableau (importerLignes heuristique rows)]

/-- Modelled from the spec: recursive table-row analysis of the
structural importer (§4.1 step 4). -/
def importerLignes (heuristique : Bool) :
    List (List (List DocxElement)) → List (List (List ImportBlock))
  | [] => []
  | ligne :: reste =>
    importerCellules heuristique ligne :: importerLignes heuristique reste

/-- Modelled from the spec: each cell is analysed as a document-like
container without header/footer (§4.1 step 4). -/
def importerCellules (heuristique : Bool) :
    List (List DocxElement) → List (List ImportBlock)
  | [] => []
  | cellule :: reste =>
    importerElements heuristique [] cellule :: importerCellules heuristique reste

end

/-- Modelled from the spec: the structural importer entry point (§4.1,
absent from `src/`): select the mode once for the whole document —
heuristic when no paragraph anywhere uses a heading-style name — then
analyse body, header and footer into a `Document`-shaped structural
tree. -/
def analyserDocxStructurel (doc : DocxDocument) : DocumentStructurel :=
  let heuristique := !docContientStyleTitre doc
  ⟨importerElements heuristique [] doc.header,
   importerElements heuristique [] doc.body,
   importerElements heuristique [] doc.footer⟩

/-- The one-paragraph/one-run structural document of the round-trip
claim, parameterised by the color value. -/
def documentStructC3 (couleur : String) : StructDocument :=
  ⟨[],
   [.mk "paragraph"
     [⟨"Hello", some ⟨some "Arial", some 12, some true, some false, some couleur⟩⟩]
     [] []],
   []⟩

/-- **C3 counterexample.** Exporting the claim's exact run — color
`"#FF0000"`, with the `#` — then re-importing loses the color:
`RGBColor.from_string("#FF0000")` raises `ValueError` (`int("#F", 16)`
fails), `_appliquer_style_run` swallows it and leaves the run color
unset, so the re-imported run has no color instead of `"#FF0000"`.
(The produced DOCX has no heading-style paragraph, so the importer runs
in heuristic mode and the short all-bold paragraph re-imports as a
level-2 heading holding that run.) -/
theorem export_reimport_couleur_diese_perdue :
    (genererExportDocx (documentStructC3 "#FF0000")).map
        (fun d => (analyserDocxStructurel d).body) =
      .ok [.titre 2
        [⟨"Hello", some "Arial", some 12, some true, some false, none⟩]] ∧
    (none : Option String) ≠ some "#FF0000" := by
  constructor
  · rfl
  · decide

/-- **C3 (amended).** With the color in the library's hex form, without
`#`, every Run field survives the round-trip exactly: exporting the
one-paragraph document whose run is `{text:"Hello", font_name:"Arial",
font_size:12, bold:true, italic:false, color:"FF0000"}` and re-importing
the produced DOCX yields a single run with identical text, font name,
point size, bold, italic and hex color.  The inserted TOC paragraph,
whose only run has empty text, is omitted by the importer; and since the
produced DOCX has no heading-style paragraph anywhere, the importer runs
in heuristic mode (§4.1), which classifies this short all-bold
paragraph as a heading of level 2 — the block kind changes while the Run
values are identical. -/
theorem export_reimport_structurel_fidele :
    (genererExportDocx (documentStructC3 "FF0000")).map
        (fun d => (analyserDocxStructurel d).body) =
      .ok [.titre 2
        [⟨"Hello", some "Arial", some 12, some true, some false, some "FF0000"⟩]] := by
  rfl

/-! ## Markdown renderer style application
(`exporter.MarkdownToDocxConverter._apply_style`) -/

/-- A color value in a renderer style dict: a hex string or an RGB
sequence (`RGBColor.from_string(color)` vs `RGBColor(*color)`). -/
inductive CouleurStyle where
  | chaine (s : String)
  | triplet (composantes : List Nat)
deriving DecidableEq, Repr

/-- A renderer style dict (the keys `_apply_style` reads); `none` models
an absent key. -/
structure StyleMarkdown where
  font_name : Option String
  font_size : Option Nat
  font_color_rgb : Option CouleurStyle
  is_bold : Option Bool
  is_italic : Option Bool
deriving DecidableEq, Repr

/-- The empty style dict `{}`. -/
def styleVide : StyleMarkdown := ⟨none, none, none, none, none⟩

/-- The dict merge `{**self.styles.get(style_name, {}), **(style_overrides
or {})}`: per key, the override wins when present. -/
def fusionnerStyles (base o : StyleMarkdown) : StyleMarkdown :=
  ⟨o.font_name <|> base.font_name,
   o.font_size <|> base.font_size,
   o.font_color_rgb <|> base.font_color_rgb,
   o.is_bold <|> base.is_bold,
   o.is_italic <|> base.is_italic⟩

/-- `self.styles.get(style_name, {})`. -/
def obtenirStyle (styles : List (String × StyleMarkdown)) (nom : String) :
    StyleMarkdown :=
  match styles.lookup nom with
  | some st => st
  | none => styleVide

/-- Python truthiness of the walrus `if color := style.get(...)`:
an empty string or empty sequence is falsy. -/
def couleurTruthy : CouleurStyle → Bool
  | .chaine s => s ≠ ""
  | .triplet l => !l.isEmpty

/-- The `try` body on a color value: `RGBColor.from_string(color)` for a
string, `RGBColor(*color)` for a sequence (wrong arity is a `TypeError`,
out-of-range components a `ValueError`, both caught by the bare
`except Exception`); `none` models the raised-and-caught exception. -/
def couleurEnRgb : CouleurStyle → Option (Nat × Nat × Nat)
  | .chaine s => rgbFromString s
  | .triplet [r, g, b] =>
    if r ≤ 255 ∧ g ≤ 255 ∧ b ≤ 255 then some (r, g, b) else none
  | .triplet _ => none

/-- The `font_name` walrus line of `_apply_style` (the `eastAsia` XML
mirror of the same name is not separately modelled). -/
def mdEtapeFont (run : DocxRun) (style : StyleMarkdown) : DocxRun :=
  match style.font_name with
  | some fn => if fn ≠ "" then { run with fontName := some fn } else run
  | none => run

/-- The `font_size` walrus line of `_apply_style`. -/
def mdEtapeTaille (run : DocxRun) (style : StyleMarkdown) : DocxRun :=
  match style.font_size with
  | some n => if n ≠ 0 then { run with sizePt := some n } else run
  | none => run

/-- The color `try`/`except Exception: pass` of `_apply_style`. -/
def mdEtapeCouleur (run : DocxRun) (style : StyleMarkdown) : DocxRun :=
  match style.font_color_rgb with
  | some col =>
    if couleurTruthy col then
      match couleurEnRgb col with
      | some rgb => { run with color := some rgb }
      | none => run
    else run
  | none => run

/-- The closing lines `run.bold = style.get("is_bold", False)` /
`run.italic = style.get("is_italic", False)` of `_apply_style`: absent
keys yield `False`, not `None`. -/
def mdEtapeBoldItalic (run : DocxRun) (style : StyleMarkdown) : DocxRun :=
  { run with bold := some (style.is_bold.getD false), italic := some (style.is_italic.getD false) }

/-- The body of `MarkdownToDocxConverter._apply_style` (exporter.py
lines 32-61) on the merged style dict. -/
def appliquerStyleMarkdown (style : StyleMarkdown) (run : DocxRun) : DocxRun :=
  mdEtapeBoldItalic (mdEtapeCouleur (mdEtapeTaille (mdEtapeFont run style) style) style) style

/-- `MarkdownToDocxConverter._apply_style`: merge the converter's base
style for `style_name` with the overrides, then apply. -/
def mdApplyStyle (styles : List (String × StyleMarkdown)) (run : DocxRun)
    (overrides : Option StyleMarkdown) (nomStyle : String) : DocxRun :=
  appliquerStyleMarkdown
    (fusionnerStyles (obtenirStyle styles nomStyle) (overrides.getD styleVide)) run

theorem etapeCouleur_ko (run : DocxRun) (st : StructStyle) (c : String)
    (hc : st.font_color_rgb = some c) (hbad : rgbFromString c = none) :
    etapeCouleur run st = run := by
  simp only [etapeCouleur, hc]
  by_cases h0 : c = ""
  · simp [h0]
  · simp [h0, hbad]

theorem mdEtapeCouleur_ko (run : DocxRun) (style : StyleMarkdown)
    (col : CouleurStyle) (h : style.font_color_rgb = some col)
    (hko : couleurEnRgb col = none) :
    mdEtapeCouleur run style = run := by
  simp only [mdEtapeCouleur, h]
  by_cases ht : couleurTruthy col = true
  · simp [ht, hko]
  · simp [ht]

/-- **C8.** When a run's style dict carries a malformed color value
(one `RGBColor` parsing rejects), applying the style leaves the run's
color unchanged and raises nothing (both embeddings are total
functions), while the other attributes are still applied — in the
structural export path `_appliquer_style_run` (bold/italic assigned
from the dict, truthy font name and size applied) and in the Markdown
renderer path `_apply_style` (bold/italic defaulted to `False` when
absent, truthy font name and size applied). -/
theorem style_couleur_malformee_ignoree
    (run : DocxRun) (st : StructStyle) (stMd : StyleMarkdown) (c : String)
    (hbad : rgbFromString c = none)
    (hc : st.font_color_rgb = some c)
    (hcMd : stMd.font_color_rgb = some (.chaine c)) :
    ((appliquerStyleRun run (some st)).color = run.color ∧
     (appliquerStyleRun run (some st)).text = run.text ∧
     (appliquerStyleRun run (some st)).bold = st.is_bold ∧
     (appliquerStyleRun run (some st)).italic = st.is_italic ∧
     (∀ fn, st.font_name = some fn → fn ≠ "" →
       (appliquerStyleRun run (some st)).fontName = some fn) ∧
     (∀ n, st.font_size = some n → n ≠ 0 →
       (appliquerStyleRun run (some st)).sizePt = some n)) ∧
    ((appliquerStyleMarkdown stMd run).color = run.color ∧
     (appliquerStyleMarkdown stMd run).text = run.text ∧
     (appliquerStyleMarkdown stMd run).bold = some (stMd.is_bold.getD false) ∧
     (appliquerStyleMarkdown stMd run).italic = some (stMd.is_italic.getD false) ∧
     (∀ fn, stMd.font_name = some fn → fn ≠ "" →
       (appliquerStyleMarkdown stMd run).fontName = some fn) ∧
     (∀ n, stMd.font_size = some n → n ≠ 0 →
       (appliquerStyleMarkdown stMd run).sizePt = some n)) := by
  have hs : appliquerStyleRun run (some st) =
      etapeFontTaille (etapeFontNom (etapeBoldItalic run st) st) st := by
    simp only [appliquerStyleRun]
    rw [etapeCouleur_ko _ _ c hc hbad]
  have hm : appliquerStyleMarkdown stMd run =
      mdEtapeBoldItalic (mdEtapeTaille (mdEtapeFont run stMd) stMd) stMd := by
    unfold appliquerStyleMarkdown
    rw [mdEtapeCouleur_ko _ _ (.chaine c) hcMd (by simpa [couleurEnRgb] using hbad)]
  refine ⟨⟨?_, ?_, ?_, ?_, ?_, ?_⟩, ⟨?_, ?_, ?_, ?_, ?_, ?_⟩⟩
  · rw [hs]
    simp only [etapeFontTaille, etapeFontNom, etapeBoldItalic]
    cases st.font_size <;> cases st.font_name <;> simp <;> split_ifs <;> simp
  · rw [hs]
    simp only [etapeFontTaille, etapeFontNom, etapeBoldItalic]
    cases st.font_size <;> cases st.font_name <;> simp <;> split_ifs <;> simp
  · rw [hs]
    simp only [etapeFontTaille, etapeFontNom, etapeBoldItalic]
    cases st.font_size <;> cases st.font_name <;> simp <;> split_ifs <;> simp
  · rw [hs]
    simp only [etapeFontTaille, etapeFontNom, etapeBoldItalic]
    cases st.font_size <;> cases st.font_name <;> simp <;> split_ifs <;> simp
  · intro fn hfn hne
    rw [hs]
    simp only [etapeFontTaille, etapeFontNom, etapeBoldItalic, hfn]
    cases st.font_size <;> simp [hne] <;> split_ifs <;> simp [hne]
  · intro n hn hne
    rw [hs]
    simp only [etapeFontTaille, hn]
    simp [hne]
  · rw [hm]
    simp only [mdEtapeBoldItalic, mdEtapeTaille, mdEtapeFont]
    cases stMd.font_size <;> cases stMd.font_name <;> simp <;> split_ifs <;> simp
  · rw [hm]
    simp only [mdEtapeBoldItalic, mdEtapeTaille, mdEtapeFont]
    cases stMd.font_size <;> cases stMd.font_name <;> simp <;> split_ifs <;> simp
  · rw [hm]
    simp [mdEtapeBoldItalic]
  · rw [hm]
    simp [mdEtapeBoldItalic]
  · intro fn hfn hne
    rw [hm]
    simp only [mdEtapeBoldItalic, mdEtapeTaille, mdEtapeFont, hfn]
    cases stMd.font_size <;> simp [hne] <;> split_ifs <;> simp [hne]
  · intro n hn hne
    rw [hm]
    simp only [mdEtapeBoldItalic, mdEtapeTaille, hn]
    simp [hne]

/-- Witness for C8: the malformed color `"#FF0000"` (the `#` makes
`int("#F", 16)` raise) on a concrete run and style. -/
theorem style_couleur_malformee_ignoree_witness :
    rgbFromString "#FF0000" = none ∧
    (appliquerStyleRun ⟨"texte", none, none, none, none, none⟩
        (some ⟨some "Arial", some 11, some true, some false, some "#FF0000"⟩)).color
      = none ∧
    (appliquerStyleMarkdown ⟨some "Calibri", some 10, some (.chaine "#FF0000"), none, none⟩
        ⟨"texte", none, none, none, none, none⟩).color = none :=
  ⟨by decide,
   (style_couleur_malformee_ignoree ⟨"texte", none, none, none, none, none⟩
     ⟨some "Arial", some 11, some true, some false, some "#FF0000"⟩
     ⟨some "Calibri", some 10, some (.chaine "#FF0000"), none, none⟩
     "#FF0000" (by decide) rfl rfl).1.1,
   (style_couleur_malformee_ignoree ⟨"texte", none, none, none, none, none⟩
     ⟨some "Arial", some 11, some true, some false, some "#FF0000"⟩
     ⟨some "Calibri", some 10, some (.chaine "#FF0000"), none, none⟩
     "#FF0000" (by decide) rfl rfl).2.1⟩
